import Mathlib

/-
Shallow embedding of the `patent_tool` repository (files `gemini_client.py`
and `patent_assistant.py`).

Modelling conventions:
* Python strings are Lean `String`s; the string operations the source uses
  (`str.lower`, `in` as substring test, `str.startswith`, `str.replace`) are
  re-implemented on `List Char` with structural recursion so that concrete
  runs reduce inside the kernel.
* JSON values / Python dicts (as produced by `json.loads` and used for the
  patent records) are the inductive `JsonVal`; Python `None` is `JsonVal.null`.
* The LLM chat-completion collaborator is an oracle parameter: one call
  outcome per attempt (`AttemptOutcome`) for the retry loop, and one outcome
  per unit of work for the batch dispatchers.  A unit of work that raises an
  exception is modelled as `Except.error msg` with `msg` the Python `str(e)`.
* A thread pool only influences the order in which futures complete; the
  dispatcher model therefore takes the completion order as an explicit list
  of indices (any permutation of `range n` is a possible schedule, whatever
  `max_workers` is) and keeps the `max_workers` argument as data only.
* `json.dump` followed by `json.load` is modelled as the identity on JSON
  values (the durable file stores exactly the dumped value).
-/

namespace PatentTool

/-! ## Python string primitives (char-list based, kernel-reducible) -/

/-- ASCII lowering of one character, as Python `str.lower` acts on the
ASCII range (the keywords classified by the source are all ASCII). -/
def asciiLower (c : Char) : Char :=
  if 'A' ≤ c ∧ c ≤ 'Z' then Char.ofNat (c.toNat + 32) else c

/-- `s.lower()` on the character list of a string. -/
def lowerStr (s : List Char) : List Char := s.map asciiLower

/-- Does `p` occur at the start of `s`?  (Bool-valued, structural.) -/
def isPrefixB : List Char → List Char → Bool
  | [], _ => true
  | _ :: _, [] => false
  | p :: ps, c :: cs => p == c && isPrefixB ps cs

/-- Python `pat in s`: substring occurrence test. -/
def containsSub (pat : List Char) : List Char → Bool
  | [] => isPrefixB pat []
  | c :: cs => isPrefixB pat (c :: cs) || containsSub pat cs

/-- Worker for `pyReplace`; the fuel argument bounds the number of steps and
keeps the recursion structural (it is instantiated with the input length,
which always suffices because the pattern is nonempty). -/
def replaceGo (pat rep : List Char) : Nat → List Char → List Char
  | 0, rest => rest
  | _ + 1, [] => []
  | n + 1, c :: cs =>
    if isPrefixB pat (c :: cs) && !pat.isEmpty then
      rep ++ replaceGo pat rep n ((c :: cs).drop pat.length)
    else
      c :: replaceGo pat rep n cs

/-- Python `s.replace(pat, rep)`: replace every (left-to-right,
non-overlapping) occurrence. -/
def pyReplace (s pat rep : String) : String :=
  String.mk (replaceGo pat.toList rep.toList s.toList.length s.toList)

/-- Python `s.startswith(pre)`. -/
def pyStartsWith (s pre : String) : Bool :=
  isPrefixB pre.toList s.toList

/-- A single-quote character as a string (used by Python `repr`/`str`
of exceptions and containers). -/
def squote : String := String.singleton (Char.ofNat 39)

/-! ## JSON values (Python dicts/lists as produced by `json.loads`) -/

/-- JSON values; also the shape of every patent record the source keeps in
memory (`self.patents` holds plain dicts).  Python `None` is `null`. -/
inductive JsonVal where
  | str (s : String)
  | num (n : Int)
  | bool (b : Bool)
  | null
  | arr (elems : List JsonVal)
  | obj (fields : List (String × JsonVal))

/-- First-match association lookup in a dict's field list (Python dict keys
are unique, so first-match agrees with dict lookup). -/
def fieldGet : List (String × JsonVal) → String → Option JsonVal
  | [], _ => none
  | (k, v) :: rest, key => if k = key then some v else fieldGet rest key

/-- Python `d[key] = v`: replace in place when the key exists, else append
(the insertion-order semantics of Python dicts). -/
def setField : List (String × JsonVal) → String → JsonVal → List (String × JsonVal)
  | [], key, v => [(key, v)]
  | (k, w) :: rest, key, v =>
    if k = key then (k, v) :: rest else (k, w) :: setField rest key v

/-- Dict lookup on a `JsonVal` (non-dicts have no keys). -/
def objLookup : JsonVal → String → Option JsonVal
  | .obj fs, key => fieldGet fs key
  | _, _ => none

/-- Python `key in d`.  (On a non-dict Python raises `TypeError`; every value
the claims test membership on is a dict, so the Bool default is never the
deciding case.) -/
def hasKey (v : JsonVal) (key : String) : Bool :=
  (objLookup v key).isSome

/-- Python `d.get(key, default)`. -/
def objGetD (v : JsonVal) (key : String) (d : JsonVal) : JsonVal :=
  (objLookup v key).getD d

/-- Python `d[key]`: raises `KeyError(key)` when absent; `str` of a
`KeyError` is the quoted key. -/
def pyGetItem (v : JsonVal) (key : String) : Except String JsonVal :=
  match objLookup v key with
  | some w => .ok w
  | none => .error (squote ++ key ++ squote)

mutual

/-- Python `repr` of a JSON value (string escaping is not reproduced — no
claim depends on container text). -/
def pyRepr : JsonVal → String
  | .str s => squote ++ s ++ squote
  | .num n => toString n
  | .bool true => "True"
  | .bool false => "False"
  | .null => "None"
  | .arr es => "[" ++ pyReprElems es ++ "]"
  | .obj fs => "\x7b" ++ pyReprFields fs ++ "\x7d"

/-- Comma-joined `repr`s of list elements. -/
def pyReprElems : List JsonVal → String
  | [] => ""
  | [x] => pyRepr x
  | x :: y :: xs => pyRepr x ++ ", " ++ pyReprElems (y :: xs)

/-- Comma-joined `repr`s of dict entries. -/
def pyReprFields : List (String × JsonVal) → String
  | [] => ""
  | [(k, v)] => squote ++ k ++ squote ++ ": " ++ pyRepr v
  | (k, v) :: p :: xs =>
    squote ++ k ++ squote ++ ": " ++ pyRepr v ++ ", " ++ pyReprFields (p :: xs)

end

/-- Python `str()` of a JSON value: identity on strings, `repr` otherwise. -/
def pyStr : JsonVal → String
  | .str s => s
  | v => pyRepr v

/-! ## Completion gateway: `GeminiClient.generate_content` (gemini_client.py:42-98)

The underlying `self.client.chat.completions.create` call is an oracle
`api : Nat → AttemptOutcome` giving the outcome of each attempt (indexed by
the loop variable `attempt`). -/

/-- Outcome of one attempt of the chat-completion call. -/
inductive AttemptOutcome where
  | content (text : String)
  /-- `response.choices`/`message`/`content` falsy (line 81's condition fails). -/
  | emptyResponse
  /-- the call raised an exception `e` with `str(e) = msg`. -/
  | exc (msg : String)
deriving DecidableEq

/-- The transient-error keyword list of gemini_client.py:91. -/
def transientKeywords : List String :=
  ["timeout", "connection", "network", "rate limit", "429", "503", "502"]

/-- gemini_client.py:90-91: `any(keyword in error_msg.lower() for keyword in ...)`. -/
def isTransientError (msg : String) : Bool :=
  transientKeywords.any (fun k => containsSub k.toList (lowerStr msg.toList))

/-- Observable trace of one `generate_content` run: the returned string, the
`time.sleep` durations (seconds, in order), and the attempt indices at which
the completion collaborator was invoked. -/
structure GenRun where
  result : String
  sleeps : List Nat
  calls : List Nat
deriving DecidableEq

/-- The `for attempt in range(max_retries)` loop of gemini_client.py:63-98.
`fuel` counts the remaining loop iterations (`maxRetries - attempt`), keeping
the recursion structural; when the loop falls through, line 98 returns the
maximum-retry-count message.  The Python guard `attempt < max_retries - 1`
(over ints) is rendered as `attempt + 1 < maxRetries` (equivalent for the
`Nat` values involved). -/
def genLoop (api : Nat → AttemptOutcome) (maxRetries : Nat) :
    Nat → Nat → List Nat → List Nat → GenRun
  | 0, _, sleeps, calls => ⟨"API 调用错误: 达到最大重试次数", sleeps, calls⟩
  | fuel + 1, attempt, sleeps, calls =>
    match api attempt with
    | .content t => ⟨t, sleeps, calls ++ [attempt]⟩
    | .emptyResponse => ⟨"模型没有返回预期的内容", sleeps, calls ++ [attempt]⟩
    | .exc msg =>
      if attempt + 1 < maxRetries && isTransientError msg then
        genLoop api maxRetries fuel (attempt + 1)
          (sleeps ++ [(attempt + 1) * 2]) (calls ++ [attempt])
      else
        ⟨"API 调用错误: " ++ msg, sleeps, calls ++ [attempt]⟩

/-- `GeminiClient.generate_content` (the prompt/system-prompt/temperature
arguments only shape the oracle's behaviour and are absorbed into it). -/
def generateContent (api : Nat → AttemptOutcome) (maxRetries : Nat) : GenRun :=
  genLoop api maxRetries maxRetries 0 [] []

/-! ## Bounded concurrent dispatcher
(`batch_generate` gemini_client.py:157-198, `batch_generate_json`
gemini_client.py:200-241, and the identical pattern in
`batch_generate_patents` patent_assistant.py:259-284)

`ThreadPoolExecutor(max_workers)` together with `as_completed` yields the
futures in some completion order; the model takes that order as an explicit
list of indices.  `results` starts as `[None] * n` and each completed future
writes its slot, so the run is a fold of slot writes over the completion
order.  `max_workers` only constrains the schedule, never the slot a result
is written to; it is kept as an (otherwise unused) argument of the batch
operations below. -/

/-- `results = [None] * n` followed by `results[index] = result` for each
completed future, in completion order. -/
def dispatchCollect {β : Type} (n : Nat) (outcome : Nat → β) (order : List Nat) :
    List (Option β) :=
  order.foldl (fun acc i => acc.set i (some (outcome i))) (List.replicate n none)

/-- The `try: result = future.result() except Exception as e:` body: a unit
of work that raised is replaced by the caller-specific failure value. -/
def runCaught {β : Type} (worker : Nat → Except String β)
    (onExc : Nat → String → β) (i : Nat) : β :=
  match worker i with
  | .ok b => b
  | .error e => onExc i e

/-- gemini_client.py:196: `results[index] = f"生成失败: {str(e)}"`. -/
def batchGenOnExc (_i : Nat) (e : String) : String :=
  "生成失败: " ++ e

/-- `GeminiClient.batch_generate`.  `gen i p` is the outcome of the worker
call `self.generate_content(p, ...)` for unit `i` (`.error msg` models an
exception escaping the worker). -/
def batchGenerate (gen : Nat → String → Except String String)
    (prompts : List String) (_maxWorkers : Nat) (order : List Nat) :
    List (Option String) :=
  dispatchCollect prompts.length
    (runCaught (fun i => gen i (prompts.getD i "")) batchGenOnExc) order

/-- gemini_client.py:239: `results[index] = {"error": f"生成失败: {str(e)}"}`. -/
def batchJsonOnExc (_i : Nat) (e : String) : JsonVal :=
  .obj [("error", .str ("生成失败: " ++ e))]

/-- `GeminiClient.batch_generate_json`.  `gen i p` is the outcome of the
worker call `self.generate_json_content(p, ...)` for unit `i`. -/
def batchGenerateJson (gen : Nat → String → Except String JsonVal)
    (prompts : List String) (_maxWorkers : Nat) (order : List Nat) :
    List (Option JsonVal) :=
  dispatchCollect prompts.length
    (runCaught (fun i => gen i (prompts.getD i "")) batchJsonOnExc) order

/-! ## Record store persistence
(`PatentAssistant._save_patents` patent_assistant.py:52-94 and
`PatentAssistant._load_patents` patent_assistant.py:38-50)

`json.dump` / `json.load` is modelled as the identity on JSON values, so the
durable file after a successful save holds exactly the dict built at
patent_assistant.py:55-59. -/

/-- The snapshot dict written by `_save_patents` (patent_assistant.py:55-59). -/
def saveSnapshot (patents : List JsonVal) (now : String) : JsonVal :=
  .obj [("patents", .arr patents),
        ("last_updated", .str now),
        ("total_count", .num patents.length)]

/-- `_load_patents` on an existing, parseable file:
`self.patents = data.get('patents', [])` (patent_assistant.py:44). -/
def loadSnapshot (data : JsonVal) : JsonVal :=
  objGetD data "patents" (.arr [])

/-! ## Domain operations (patent_assistant.py) -/

/-- `idea["id"].replace("idea_", "patent_")` when the value is a string; on
any other value Python raises `AttributeError`. -/
def pyStrReplace (v : JsonVal) (pat rep : String) : Except String JsonVal :=
  match v with
  | .str s => .ok (.str (pyReplace s pat rep))
  | _ => .error "AttributeError: replace"

/-- `generate_single_patent` (the worker closure of `batch_generate_patents`,
patent_assistant.py:227-257).  `genContent` is the oracle for
`self.templates.get_full_patent_prompt` composed with
`self.client.generate_content` — a total function of the title and features
values, since `generate_content` catches every exception itself.  The match
nesting follows Python's evaluation order, so a `KeyError` surfaces with the
same message Python would produce. -/
def generateSinglePatent (genContent : JsonVal → JsonVal → String) (now : String)
    (idea : JsonVal) : Except String JsonVal :=
  if hasKey idea "error" then
    match pyGetItem idea "id" with
    | .error e => .error e
    | .ok idv =>
      match pyGetItem idea "title" with
      | .error e => .error e
      | .ok titlev =>
        .ok (.obj [("id", idv),
                   ("title", titlev),
                   ("features", objGetD idea "features" (.arr [])),
                   ("content", .str ("无法生成专利内容：" ++ pyStr (objGetD idea "error" .null))),
                   ("generated_at", .str now),
                   ("status", .str "error")])
  else
    match pyGetItem idea "id" with
    | .error e => .error e
    | .ok idv =>
      match pyStrReplace idv "idea_" "patent_" with
      | .error e => .error e
      | .ok pid =>
        .ok (.obj [("id", pid),
                   ("title", objGetD idea "title" (.str "未知标题")),
                   ("features", objGetD idea "features" (.arr [])),
                   ("content", .str (genContent (objGetD idea "title" (.str "未知标题"))
                                       (objGetD idea "features" (.arr [])))),
                   ("generated_at", .str now),
                   ("status", .str "draft")])

/-- The `except Exception as e:` arm of `batch_generate_patents`
(patent_assistant.py:274-284), synthesizing an error document from
`patent_ideas[index]`.  The handler itself runs outside any try: building
the dict evaluates `idea["id"].replace("idea_", "patent_")` first, so a
missing `id` key raises `KeyError` and a non-string id raises
`AttributeError` — out of the whole batch call; the `Except` return models
that. -/
def patentsOnExc (ideas : List JsonVal) (now : String) (i : Nat) (e : String) :
    Except String JsonVal :=
  match pyGetItem (ideas.getD i (.obj [])) "id" with
  | .error ke => .error ke
  | .ok idv =>
    match pyStrReplace idv "idea_" "patent_" with
    | .error ae => .error ae
    | .ok pid =>
      .ok (.obj [("id", pid),
                 ("title", objGetD (ideas.getD i (.obj [])) "title" (.str "未知标题")),
                 ("features", objGetD (ideas.getD i (.obj [])) "features" (.arr [])),
                 ("content", .str ("生成专利时出现错误：" ++ e)),
                 ("generated_at", .str now),
                 ("status", .str "error")])

/-- One slot of the `batch_generate_patents` collection loop: the worker's
document when the unit of work succeeds, else whatever the except-handler
does — substitute an error document, or itself raise. -/
def patentsOutcome (genContent : JsonVal → JsonVal → String) (now : String)
    (ideas : List JsonVal) (i : Nat) : Except String JsonVal :=
  match generateSinglePatent genContent now (ideas.getD i (.obj [])) with
  | .ok d => .ok d
  | .error e => patentsOnExc ideas now i e

/-- The result-collection loop of `batch_generate_patents`: like
`dispatchCollect`, but a per-slot outcome can be an exception escaping the
except-handler, which aborts the whole loop (the exception propagates out of
the function; the partially filled list is discarded). -/
def dispatchCollectE {β : Type} (outcome : Nat → Except String β) :
    List Nat → List (Option β) → Except String (List (Option β))
  | [], acc => .ok acc
  | i :: rest, acc =>
    match outcome i with
    | .ok b => dispatchCollectE outcome rest (acc.set i (some b))
    | .error e => .error e

/-- `PatentAssistant.batch_generate_patents` up to the returned `patents`
list (patent_assistant.py:259-284); the same dispatcher pattern as
`batch_generate`, with `generate_single_patent` as the unit of work, except
that the error path of its except-handler aborts the call. -/
def batchGeneratePatents (genContent : JsonVal → JsonVal → String) (now : String)
    (ideas : List JsonVal) (_maxWorkers : Nat) (order : List Nat) :
    Except String (List (Option JsonVal)) :=
  dispatchCollectE (patentsOutcome genContent now ideas) order
    (List.replicate ideas.length none)

/-- patent_assistant.py:195: `f"patent_{int(datetime.now().timestamp())}_{len(self.patents) + 1}"`
with `ts` the observed epoch second and `numPatents` the observed
`len(self.patents)`. -/
def fullPatentDocId (ts numPatents : Nat) : String :=
  "patent_" ++ toString ts ++ "_" ++ toString (numPatents + 1)

/-- patent_assistant.py:189-191: status is `"error"` iff the gateway result
text starts with the error prefix, else `"draft"`. -/
def fullPatentStatus (result : String) : String :=
  if pyStartsWith result "API 调用错误:" then "error" else "draft"

/-- The document dict built by `generate_full_patent`
(patent_assistant.py:194-201); `result` is the gateway's returned text. -/
def mkFullPatentDoc (ts numPatents : Nat) (title : String) (features : List String)
    (result now : String) : JsonVal :=
  .obj [("id", .str (fullPatentDocId ts numPatents)),
        ("title", .str title),
        ("features", .arr (features.map .str)),
        ("content", .str result),
        ("generated_at", .str now),
        ("status", .str (fullPatentStatus result))]

/-- The error-idea dict of patent_assistant.py:152-158. -/
def mkErrorIdea (now : String) (i : Nat) (msg : String) : JsonVal :=
  .obj [("id", .str ("idea_" ++ toString (i + 1))),
        ("title", .str ("生成失败 #" ++ toString (i + 1))),
        ("features", .arr [.str "生成过程中出现错误"]),
        ("error", .str msg),
        ("generated_at", .str now)]

/-- The per-result post-processing of `generate_patent_ideas`
(patent_assistant.py:126-159), `i` being the 0-based enumeration index.
A slot still holding Python `None` arrives here as `JsonVal.null` and falls
into the final error branch with message `"未知错误"`, exactly as in Python. -/
def processIdeaResult (now : String) (i : Nat) (result : JsonVal) : JsonVal :=
  match result with
  | .obj fields =>
    if (fieldGet fields "error").isSome then
      mkErrorIdea now i (pyStr ((fieldGet fields "error").getD .null))
    else if (fieldGet fields "title").isSome && (fieldGet fields "features").isSome then
      .obj (setField (setField fields "id" (.str ("idea_" ++ toString (i + 1))))
              "generated_at" (.str now))
    else
      .obj [("id", .str ("idea_" ++ toString (i + 1))),
            ("title", (fieldGet fields "title").getD (.str ("创意 #" ++ toString (i + 1)))),
            ("features", (fieldGet fields "features").getD (.arr [.str "生成的内容格式不完整"])),
            ("error", .str "生成的JSON格式不完整"),
            ("generated_at", .str now)]
  | .str s => mkErrorIdea now i s
  | _ => mkErrorIdea now i "未知错误"

/-- Does a batch result take the fully-successful branch of
`generate_patent_ideas` (a dict, no `error` key, with `title` and
`features`)?  Results failing this test are downgraded to error ideas. -/
def ideaResultOk (result : JsonVal) : Bool :=
  match result with
  | .obj fields =>
    !(fieldGet fields "error").isSome &&
      ((fieldGet fields "title").isSome && (fieldGet fields "features").isSome)
  | _ => false

/-- The result-processing loop of `generate_patent_ideas`
(patent_assistant.py:125-161): every result appends exactly one idea. -/
def generatePatentIdeas (now : String) (results : List JsonVal) : List JsonVal :=
  results.enum.map (fun p => processIdeaResult now p.1 p.2)

/-- `PatentAssistant.generate_patent_ideas` end to end
(patent_assistant.py:96-161): `count` identical prompts (the template is the
opaque string `promptText`), dispatched through `batch_generate_json`, then
post-processed.  An unfilled `None` slot becomes `JsonVal.null`. -/
def generatePatentIdeasFull (gen : Nat → String → Except String JsonVal)
    (count : Nat) (now : String) (maxWorkers : Nat) (order : List Nat)
    (promptText : String) : List JsonVal :=
  generatePatentIdeas now
    ((batchGenerateJson gen (List.replicate count promptText) maxWorkers order).map
      (fun o => o.getD .null))

/-- Specification-side format check: is `s` of the form
`patent_<digits>_<digits>` with both digit groups nonempty?  (This is the
id format the spec asserts; it is not taken from the source.) -/
def isEpochSeqId (s : String) : Bool :=
  isPrefixB "patent_".toList s.toList &&
    match (s.toList.drop 7).splitOn '_' with
    | [grpA, grpB] =>
      (!grpA.isEmpty && grpA.all (·.isDigit)) && (!grpB.isEmpty && grpB.all (·.isDigit))
    | _ => false

/-! ## Reference semantics of the read operations
(`PatentAssistant.get_patents` patent_assistant.py:318-321 and
`PatentAssistant.get_patent_by_id` patent_assistant.py:323-329)

`list.copy()` and `dict.copy()` are shallow: they allocate a new container
holding the same references.  To state what a caller's mutation of a
returned value does to the store, the relevant Python objects are modelled
with an explicit heap: record dicts and their nested `features` lists are
heap cells addressed by `Nat`, a dict field value is either an immutable
string or a reference to a list cell, and `self.patents` is the list of the
record dicts' addresses. -/

/-- A value stored in a record dict field: an immutable string, or a
reference to a heap-allocated (mutable) list of strings. -/
inductive FieldVal where
  | s (v : String)
  | ref (a : Nat)
deriving DecidableEq

/-- The heap: record dicts and string lists by address, plus the next fresh
address. -/
structure AliasHeap where
  dicts : List (Nat × List (String × FieldVal))
  lists : List (Nat × List String)
  nextAddr : Nat
deriving DecidableEq

/-- Association lookup by address. -/
def addrGet {α : Type} : List (Nat × α) → Nat → Option α
  | [], _ => none
  | (k, v) :: rest, a => if k = a then some v else addrGet rest a

/-- In-place update of the cell at an address. -/
def addrSet {α : Type} : List (Nat × α) → Nat → α → List (Nat × α)
  | [], _, _ => []
  | (k, w) :: rest, a, v =>
    if k = a then (k, v) :: rest else (k, w) :: addrSet rest a v

/-- The record dict stored at `a` (empty when unallocated). -/
def heapDict (h : AliasHeap) (a : Nat) : List (String × FieldVal) :=
  (addrGet h.dicts a).getD []

/-- The string list stored at `a` (empty when unallocated). -/
def heapList (h : AliasHeap) (a : Nat) : List String :=
  (addrGet h.lists a).getD []

/-- First-match field lookup in a record dict. -/
def fvGet : List (String × FieldVal) → String → Option FieldVal
  | [], _ => none
  | (k, v) :: rest, key => if k = key then some v else fvGet rest key

/-- Python `d[key] = v` on a record dict. -/
def fvSet : List (String × FieldVal) → String → FieldVal → List (String × FieldVal)
  | [], key, v => [(key, v)]
  | (k, w) :: rest, key, v =>
    if k = key then (k, v) :: rest else (k, w) :: fvSet rest key v

/-- A record value with every reference dereferenced — what the store's
record *means*, independently of object identity. -/
inductive DeepVal where
  | s (v : String)
  | l (xs : List String)
deriving DecidableEq

/-- Fully dereferenced reading of the record dict at `a`. -/
def deepRead (h : AliasHeap) (a : Nat) : List (String × DeepVal) :=
  (heapDict h a).map (fun p =>
    (p.1, match p.2 with
          | .s v => .s v
          | .ref r => .l (heapList h r)))

/-- The store's collection as deeply-read record values:
`[deref(d) for d in self.patents]`. -/
def storeView (h : AliasHeap) (addrs : List Nat) : List (List (String × DeepVal)) :=
  addrs.map (deepRead h)

/-- `get_patents` (patent_assistant.py:318-321): `self.patents.copy()` — a
fresh list object holding the same record references. -/
def getPatents (addrs : List Nat) : List Nat :=
  addrs

/-- `get_patent_by_id` (patent_assistant.py:323-329): scan for the first
record whose `id` field equals `pid`, and return `patent.copy()` — a dict
allocated at the fresh address, holding the same field values (so the same
`features` reference). -/
def getPatentById (h : AliasHeap) (addrs : List Nat) (pid : String) :
    Option (Nat × AliasHeap) :=
  match addrs.find? (fun a => fvGet (heapDict h a) "id" == some (.s pid)) with
  | some a =>
    some (h.nextAddr,
      { h with dicts := h.dicts ++ [(h.nextAddr, heapDict h a)],
               nextAddr := h.nextAddr + 1 })
  | none => none

/-- A caller mutating a record dict it holds a reference to:
`d[key] = v`. -/
def setDictField (h : AliasHeap) (a : Nat) (key : String) (v : FieldVal) : AliasHeap :=
  { h with dicts := addrSet h.dicts a (fvSet (heapDict h a) key v) }

/-- A caller mutating a features list it holds a reference to:
`xs.append(x)`. -/
def appendToListCell (h : AliasHeap) (a : Nat) (x : String) : AliasHeap :=
  { h with lists := addrSet h.lists a (heapList h a ++ [x]) }

/-! ## Concrete example states (used by the counterexample runs) -/

/-- A store with one record: dict at address 0 with id `"p1"` and a
`features` list at address 1 holding `["f1"]`. -/
def exampleHeap : AliasHeap :=
  ⟨[(0, [("id", .s "p1"), ("features", .ref 1)])], [(1, ["f1"])], 2⟩

/-- The address list of `exampleHeap`'s store (`self.patents`). -/
def examplePatents : List Nat := [0]

/-- The result of `get_patent_by_id("p1")` on the example store: the copy's
address and the post-read heap. -/
def exampleRead : Nat × AliasHeap :=
  (getPatentById exampleHeap examplePatents "p1").getD (0, exampleHeap)

/-- A well-formed idea dict (`idea_1` with a title and empty features). -/
def exampleIdea : JsonVal :=
  .obj [("id", .str "idea_1"), ("title", .str "t"), ("features", .arr [])]

/-- A second well-formed idea dict (`idea_2`). -/
def exampleIdea2 : JsonVal :=
  .obj [("id", .str "idea_2"), ("title", .str "B"), ("features", .arr [])]

/-! ## Dispatcher lemmas -/

/-- One slot of the fold of slot writes: index `j` holds `f j` once `j` has
been written (`j ∈ order` and in range), and is untouched otherwise. -/
theorem foldl_set_getElem {β : Type} (f : Nat → β) :
    ∀ (order : List Nat) (init : List (Option β)) (j : Nat),
      (order.foldl (fun acc i => acc.set i (some (f i))) init)[j]? =
        if j ∈ order ∧ j < init.length then some (some (f j)) else init[j]? := by
  intro order
  induction order with
  | nil => intro init j; simp
  | cons i rest ih =>
    intro init j
    simp only [List.foldl_cons]
    rw [ih, List.length_set, List.getElem?_set]
    by_cases hmem : j ∈ rest <;> by_cases hij : i = j <;>
      by_cases hlt : j < init.length
    · simp [hmem, hlt]
    · subst hij; simp [hmem, hlt, List.getElem?_eq_none (Nat.le_of_not_lt hlt)]
    · simp [hmem, hlt]
    · simp [hmem, hlt, hij, List.getElem?_eq_none (Nat.le_of_not_lt hlt)]
    · subst hij; simp [hmem, hlt]
    · subst hij; simp [hmem, hlt, List.getElem?_eq_none (Nat.le_of_not_lt hlt)]
    · simp [List.mem_cons, hmem, hij, Ne.symm hij, hlt]
    · simp [List.mem_cons, hmem, hij, Ne.symm hij, hlt,
        List.getElem?_eq_none (Nat.le_of_not_lt hlt)]

/-- Whenever the completion order is a permutation of `range n` (every
submitted future completes exactly once), the dispatcher's result list is
the in-order map of the per-unit outcomes: completion order and pool size
leave no trace. -/
theorem dispatchCollect_eq_map {β : Type} (n : Nat) (f : Nat → β) (order : List Nat)
    (h : order.Perm (List.range n)) :
    dispatchCollect n f order = (List.range n).map (fun i => some (f i)) := by
  apply List.ext_getElem?
  intro j
  show (order.foldl (fun acc i => acc.set i (some (f i))) (List.replicate n none))[j]? = _
  rw [foldl_set_getElem, List.length_replicate, List.getElem?_map]
  by_cases hj : j < n
  · simp [h.mem_iff, List.mem_range, hj, List.getElem?_range hj]
  · simp [h.mem_iff, List.mem_range, hj, List.getElem?_replicate,
      List.getElem?_eq_none (show (List.range n).length ≤ j by simpa using Nat.le_of_not_lt hj)]

/-! ## Claim C1 -/

/-- C1: for every prompt list of length N and every `max_workers ≥ 1`,
`batch_generate` and `batch_generate_json` return a list of length N whose
i-th element is the (caught) result of the worker run on the i-th prompt,
and the returned list does not depend on `max_workers` or on the order in
which the units of work complete. -/
theorem c1_batch_alignment
    (gen : Nat → String → Except String String)
    (genJ : Nat → String → Except String JsonVal)
    (prompts : List String) (maxWorkers : Nat) (order : List Nat)
    (_hmw : 1 ≤ maxWorkers) (hord : order.Perm (List.range prompts.length)) :
    ((batchGenerate gen prompts maxWorkers order).length = prompts.length ∧
      ∀ i < prompts.length,
        (batchGenerate gen prompts maxWorkers order)[i]? =
          some (some (runCaught (fun k => gen k (prompts.getD k "")) batchGenOnExc i))) ∧
    ((batchGenerateJson genJ prompts maxWorkers order).length = prompts.length ∧
      ∀ i < prompts.length,
        (batchGenerateJson genJ prompts maxWorkers order)[i]? =
          some (some (runCaught (fun k => genJ k (prompts.getD k "")) batchJsonOnExc i))) ∧
    (∀ maxWorkers2 order2, 1 ≤ maxWorkers2 → order2.Perm (List.range prompts.length) →
      batchGenerate gen prompts maxWorkers2 order2 =
        batchGenerate gen prompts maxWorkers order ∧
      batchGenerateJson genJ prompts maxWorkers2 order2 =
        batchGenerateJson genJ prompts maxWorkers order) := by
  simp only [batchGenerate, batchGenerateJson]
  rw [dispatchCollect_eq_map _ _ _ hord, dispatchCollect_eq_map _ _ _ hord]
  refine ⟨⟨by simp, ?_⟩, ⟨by simp, ?_⟩, ?_⟩
  · intro i hi
    simp [List.getElem?_range hi]
  · intro i hi
    simp [List.getElem?_range hi]
  · intro mw2 ord2 _ hord2
    rw [dispatchCollect_eq_map _ _ _ hord2, dispatchCollect_eq_map _ _ _ hord2]
    exact ⟨rfl, rfl⟩

/-- Witness for C1 at a concrete batch of three prompts, pool size 2 and the
completion order 2, 0, 1. -/
theorem c1_batch_alignment_witness :
    1 ≤ 2 ∧ [2, 0, 1].Perm (List.range 3) ∧
      ((batchGenerate (fun i _ => .ok (toString i)) ["a", "b", "c"] 2 [2, 0, 1]).length = 3 ∧
        batchGenerate (fun i _ => .ok (toString i)) ["a", "b", "c"] 1 [0, 1, 2] =
          batchGenerate (fun i _ => .ok (toString i)) ["a", "b", "c"] 2 [2, 0, 1]) :=
  ⟨by decide, by decide,
    (c1_batch_alignment (fun i _ => .ok (toString i)) (fun _ _ => .ok .null)
      ["a", "b", "c"] 2 [2, 0, 1] (by decide) (by decide)).1.1,
    ((c1_batch_alignment (fun i _ => .ok (toString i)) (fun _ _ => .ok .null)
      ["a", "b", "c"] 2 [2, 0, 1] (by decide) (by decide)).2.2 1 [0, 1, 2]
        (by decide) (by decide)).1⟩

/-! ## Claim C2

For `batch_generate` and `batch_generate_json` the claim holds as stated.
For `batch_generate_patents` the except-handler itself evaluates
`idea["id"].replace("idea_", "patent_")` outside any try
(patent_assistant.py:278): when the failing idea has no `id` key, or a
non-string id, the handler raises and the whole batch call aborts — no error
document is substituted and the other items’ results are lost. -/

/-- When every processed slot’s outcome is a success, the fallible collector
completes and equals the plain slot-write fold. -/
theorem dispatchCollectE_ok {β : Type} (outcome : Nat → Except String β)
    (f : Nat → β) :
    ∀ (order : List Nat) (acc : List (Option β)),
      (∀ i ∈ order, outcome i = .ok (f i)) →
      dispatchCollectE outcome order acc =
        .ok (order.foldl (fun a i => a.set i (some (f i))) acc) := by
  intro order
  induction order with
  | nil => intro acc _; rfl
  | cons i rest ih =>
    intro acc hall
    have hi := hall i (List.mem_cons_self i rest)
    simp only [dispatchCollectE, hi]
    rw [ih _ (fun k hk => hall k (List.mem_cons_of_mem i hk))]
    simp [List.foldl_cons]

/-- An error document substituted by a *successful* run of the
except-handler always has status `"error"`. -/
theorem patentsOnExc_status (ideas : List JsonVal) (now : String) (i : Nat)
    (e : String) (d : JsonVal) (h : patentsOnExc ideas now i e = .ok d) :
    objLookup d "status" = some (.str "error") := by
  unfold patentsOnExc at h
  cases hid2 : pyGetItem (ideas.getD i (.obj [])) "id" with
  | error ke =>
    simp only [hid2] at h
    exact absurd h (by simp)
  | ok idv =>
    simp only [hid2] at h
    cases hrep : pyStrReplace idv "idea_" "patent_" with
    | error ae =>
      simp only [hrep] at h
      exact absurd h (by simp)
    | ok pid =>
      simp only [hrep, Except.ok.injEq] at h
      subst h
      simp [objLookup, fieldGet]

/-- C2 counterexample: in `batch_generate_patents`, the worker for the idea
`{"error": "boom"}` raises `KeyError` (no `id` key); the except-handler
then evaluates `idea["id"]` itself and raises the same `KeyError` out of the
whole call — the batch aborts with no result list, so no error document is
substituted at the failing index and the healthy item’s result is lost
(rather than being unaffected, as the claim states).  The comparison run
with both ideas healthy completes normally. -/
theorem c2_counterexample :
    batchGeneratePatents (fun _ _ => "c") "t"
        [exampleIdea, .obj [("error", .str "boom")]] 2 [1, 0] =
      .error (squote ++ "id" ++ squote) ∧
    batchGeneratePatents (fun _ _ => "c") "t" [exampleIdea, exampleIdea2] 2 [1, 0] =
      .ok [some (.obj [("id", .str "patent_1"), ("title", .str "t"),
                       ("features", .arr []), ("content", .str "c"),
                       ("generated_at", .str "t"), ("status", .str "draft")]),
           some (.obj [("id", .str "patent_2"), ("title", .str "B"),
                       ("features", .arr []), ("content", .str "c"),
                       ("generated_at", .str "t"), ("status", .str "draft")])] := by
  exact ⟨rfl, rfl⟩

/-- C2 amended: a unit of work that raises is replaced, at its own index, by
the synthesized per-item failure value, and every other index’s result
equals the comparison run’s (where that unit does not fail) — exactly as the
claim states for `batch_generate` (error string) and `batch_generate_json`
(dict with an `error` key); for `batch_generate_patents` additionally
*provided the except-handler itself succeeds on the failing idea*
(`patentsOnExc … = .ok dP`, which requires the idea to carry a string `id`):
then both runs complete, index `j` holds the substituted document `dP` with
status `"error"`, and all other indices agree.  When the handler raises
instead, the whole batch aborts (see the counterexample).
`gen2`/`genJ2`/`ideas2` describe the run with the failure injected at index
`j`; the unprimed data describe the comparison run, whose per-item documents
are `dOther i` off `j` and `dOK` at `j`. -/
theorem c2_failure_isolation
    (gen gen2 : Nat → String → Except String String)
    (genJ genJ2 : Nat → String → Except String JsonVal)
    (genC : JsonVal → JsonVal → String) (now : String)
    (prompts : List String) (ideas ideas2 : List JsonVal)
    (j maxWorkers : Nat) (order : List Nat) (e eJ eP : String)
    (dP dOK : JsonVal) (dOther : Nat → JsonVal)
    (hord : order.Perm (List.range prompts.length))
    (hlen : ideas.length = prompts.length)
    (hlen2 : ideas2.length = prompts.length)
    (hg : ∀ i < prompts.length, i ≠ j → gen2 i (prompts.getD i "") = gen i (prompts.getD i ""))
    (hgJ : ∀ i < prompts.length, i ≠ j →
      genJ2 i (prompts.getD i "") = genJ i (prompts.getD i ""))
    (hid : ∀ i < prompts.length, i ≠ j → ideas2.getD i (.obj []) = ideas.getD i (.obj []))
    (hj : j < prompts.length)
    (hfg : gen2 j (prompts.getD j "") = .error e)
    (hfgJ : genJ2 j (prompts.getD j "") = .error eJ)
    (hfp : generateSinglePatent genC now (ideas2.getD j (.obj [])) = .error eP)
    (hhandler : patentsOnExc ideas2 now j eP = .ok dP)
    (hgood : ∀ i < prompts.length, i ≠ j →
      patentsOutcome genC now ideas i = .ok (dOther i))
    (hokj : generateSinglePatent genC now (ideas.getD j (.obj [])) = .ok dOK) :
    (∀ i, i ≠ j →
      (batchGenerate gen2 prompts maxWorkers order)[i]? =
        (batchGenerate gen prompts maxWorkers order)[i]?) ∧
    (batchGenerate gen2 prompts maxWorkers order)[j]? =
      some (some ("生成失败: " ++ e)) ∧
    (∀ i, i ≠ j →
      (batchGenerateJson genJ2 prompts maxWorkers order)[i]? =
        (batchGenerateJson genJ prompts maxWorkers order)[i]?) ∧
    (batchGenerateJson genJ2 prompts maxWorkers order)[j]? =
      some (some (.obj [("error", .str ("生成失败: " ++ eJ))])) ∧
    (∃ out out2,
      batchGeneratePatents genC now ideas maxWorkers order = .ok out ∧
      batchGeneratePatents genC now ideas2 maxWorkers order = .ok out2 ∧
      (∀ i, i ≠ j → out2[i]? = out[i]?) ∧
      out2[j]? = some (some dP) ∧
      objLookup dP "status" = some (.str "error")) := by
  have houtEq : ∀ i, i < prompts.length → i ≠ j →
      patentsOutcome genC now ideas2 i = patentsOutcome genC now ideas i := by
    intro i hlt hne
    have h := hid i hlt hne
    simp only [patentsOutcome, patentsOnExc, h]
  have hrun1 : ∀ i ∈ order, patentsOutcome genC now ideas i =
      .ok (if i = j then dOK else dOther i) := by
    intro i hiord
    have hilt : i < prompts.length := List.mem_range.mp (hord.mem_iff.mp hiord)
    by_cases hne : i = j
    · subst hne
      simp only [patentsOutcome, hokj]
      simp
    · rw [if_neg hne]
      exact hgood i hilt hne
  have hrun2 : ∀ i ∈ order, patentsOutcome genC now ideas2 i =
      .ok (if i = j then dP else dOther i) := by
    intro i hiord
    have hilt : i < prompts.length := List.mem_range.mp (hord.mem_iff.mp hiord)
    by_cases hne : i = j
    · subst hne
      simp only [patentsOutcome, hfp]
      simpa using hhandler
    · rw [if_neg hne, houtEq i hilt hne]
      exact hgood i hilt hne
  have hb1 : batchGeneratePatents genC now ideas maxWorkers order =
      .ok ((List.range prompts.length).map
        (fun i => some (if i = j then dOK else dOther i))) := by
    show dispatchCollectE (patentsOutcome genC now ideas) order
        (List.replicate ideas.length none) = _
    rw [hlen, dispatchCollectE_ok (patentsOutcome genC now ideas)
      (fun i => if i = j then dOK else dOther i) order
      (List.replicate prompts.length none) hrun1]
    exact congrArg Except.ok (dispatchCollect_eq_map prompts.length _ order hord)
  have hb2 : batchGeneratePatents genC now ideas2 maxWorkers order =
      .ok ((List.range prompts.length).map
        (fun i => some (if i = j then dP else dOther i))) := by
    show dispatchCollectE (patentsOutcome genC now ideas2) order
        (List.replicate ideas2.length none) = _
    rw [hlen2, dispatchCollectE_ok (patentsOutcome genC now ideas2)
      (fun i => if i = j then dP else dOther i) order
      (List.replicate prompts.length none) hrun2]
    exact congrArg Except.ok (dispatchCollect_eq_map prompts.length _ order hord)
  simp only [batchGenerate, batchGenerateJson]
  rw [dispatchCollect_eq_map _ _ _ hord, dispatchCollect_eq_map _ _ _ hord,
    dispatchCollect_eq_map _ _ _ hord, dispatchCollect_eq_map _ _ _ hord]
  refine ⟨?_, ?_, ?_, ?_,
    ⟨_, _, hb1, hb2, ?_, ?_, patentsOnExc_status ideas2 now j eP dP hhandler⟩⟩
  · intro i hi
    by_cases hin : i < prompts.length
    · have hgi := hg i hin hi
      simp only [List.getD_eq_getElem?_getD] at hgi
      simp [runCaught, List.getElem?_range hin, hgi]
    · simp [List.getElem?_eq_none
        (show (List.range prompts.length).length ≤ i by
          simpa using Nat.le_of_not_lt hin)]
  · have hfg2 := hfg
    simp only [List.getD_eq_getElem?_getD] at hfg2
    simp [List.getElem?_range hj, runCaught, hfg2, batchGenOnExc]
  · intro i hi
    by_cases hin : i < prompts.length
    · have hgi := hgJ i hin hi
      simp only [List.getD_eq_getElem?_getD] at hgi
      simp [runCaught, List.getElem?_range hin, hgi]
    · simp [List.getElem?_eq_none
        (show (List.range prompts.length).length ≤ i by
          simpa using Nat.le_of_not_lt hin)]
  · have hfgJ2 := hfgJ
    simp only [List.getD_eq_getElem?_getD] at hfgJ2
    simp [List.getElem?_range hj, runCaught, hfgJ2, batchJsonOnExc]
  · intro i hi
    by_cases hin : i < prompts.length
    · simp [List.getElem?_range hin, hi]
    · simp [List.getElem?_eq_none
        (show (List.range prompts.length).length ≤ i by
          simpa using Nat.le_of_not_lt hin)]
  · simp [List.getElem?_range hj]

/-- Witness for C2: a two-unit batch where unit 1 fails (`gen2`/`genJ2`
raise; `ideas2[1]` carries an `error` key and a string `id` but no `title`,
so the patent worker raises `KeyError('title')` while the except-handler
succeeds), compared against a run with unit 1 healthy. -/
theorem c2_failure_isolation_witness :
    generateSinglePatent (fun _ _ => "c") "t"
        (.obj [("error", .str "boom"), ("id", .str "idea_2")]) =
      .error (squote ++ "title" ++ squote) ∧
    (batchGenerate (fun i _ => if i = 1 then .error "down" else .ok "ok1")
        ["p", "q"] 2 [1, 0])[1]? = some (some ("生成失败: " ++ "down")) ∧
    (batchGenerate (fun i _ => if i = 1 then .error "down" else .ok "ok1")
        ["p", "q"] 2 [1, 0])[0]? =
      (batchGenerate (fun _ _ => .ok "ok1") ["p", "q"] 2 [1, 0])[0]? := by
  have h := c2_failure_isolation
    (fun _ _ => .ok "ok1") (fun i _ => if i = 1 then .error "down" else .ok "ok1")
    (fun _ _ => .ok .null) (fun i _ => if i = 1 then .error "jdown" else .ok .null)
    (fun _ _ => "c") "t" ["p", "q"]
    [exampleIdea, exampleIdea2]
    [exampleIdea, .obj [("error", .str "boom"), ("id", .str "idea_2")]]
    1 2 [1, 0] "down" "jdown" (squote ++ "title" ++ squote)
    (.obj [("id", .str "patent_2"), ("title", .str "未知标题"),
           ("features", .arr []),
           ("content", .str ("生成专利时出现错误：" ++ (squote ++ "title" ++ squote))),
           ("generated_at", .str "t"), ("status", .str "error")])
    (.obj [("id", .str "patent_2"), ("title", .str "B"), ("features", .arr []),
           ("content", .str "c"), ("generated_at", .str "t"),
           ("status", .str "draft")])
    (fun _ => .obj [("id", .str "patent_1"), ("title", .str "t"),
                    ("features", .arr []), ("content", .str "c"),
                    ("generated_at", .str "t"), ("status", .str "draft")])
    (by decide) (by decide) (by decide)
    (by intro i _ hi; simp [hi])
    (by intro i _ hi; simp [hi])
    (by
      intro i hilt hi
      have h2 : i < 2 := by simpa using hilt
      interval_cases i
      · rfl
      · exact absurd rfl hi)
    (by decide) (by rfl) (by rfl) (by rfl) (by rfl)
    (by
      intro i hilt hi
      have h2 : i < 2 := by simpa using hilt
      interval_cases i
      · rfl
      · exact absurd rfl hi)
    (by rfl)
  exact ⟨by rfl, h.2.1, h.1 0 (by decide)⟩

/-! ## Claim C3 -/

/-- C3: after every successful save of the in-memory collection of N
records, the written snapshot's `total_count` field equals N, and loading
that snapshot back (a fresh store's `_load_patents` on the file) yields
exactly the N saved records. -/
theorem c3_save_load_roundtrip (patents : List JsonVal) (now : String) :
    objLookup (saveSnapshot patents now) "total_count" =
      some (.num patents.length) ∧
    loadSnapshot (saveSnapshot patents now) = .arr patents := by
  constructor
  · simp [saveSnapshot, objLookup, fieldGet]
  · simp [saveSnapshot, loadSnapshot, objGetD, objLookup, fieldGet]

/-! ## Claim C4

gemini_client.py:90 only retries while `attempt < max_retries - 1`; on the
final attempt even a transient error takes the `return f"API 调用错误:
{error_msg}"` branch, so the loop never falls through to line 98 when
`max_retries ≥ 1` and the "达到最大重试次数" text is never returned. -/

/-- C4 counterexample: with `max_retries = 3` and every attempt failing with
the transient message "timeout", `generate_content` returns
"API 调用错误: timeout" (after sleeps of 2s and 4s and three attempts) — not
the maximum-retry-count message the claim asserts. -/
theorem c4_counterexample :
    generateContent (fun _ => .exc "timeout") 3 =
      ⟨"API 调用错误: timeout", [2, 4], [0, 1, 2]⟩ ∧
    ("API 调用错误: timeout" = "API 调用错误: 达到最大重试次数" → False) := by
  exact ⟨by decide, by decide⟩

/-- One unfolding step of the retry loop (definitional). -/
theorem genLoop_succ (api : Nat → AttemptOutcome) (maxRetries fuel attempt : Nat)
    (sleeps calls : List Nat) :
    genLoop api maxRetries (fuel + 1) attempt sleeps calls =
      match api attempt with
      | .content t => ⟨t, sleeps, calls ++ [attempt]⟩
      | .emptyResponse => ⟨"模型没有返回预期的内容", sleeps, calls ++ [attempt]⟩
      | .exc m =>
        if attempt + 1 < maxRetries && isTransientError m then
          genLoop api maxRetries fuel (attempt + 1)
            (sleeps ++ [(attempt + 1) * 2]) (calls ++ [attempt])
        else
          ⟨"API 调用错误: " ++ m, sleeps, calls ++ [attempt]⟩ := rfl

/-- Inner induction for C4: once every remaining attempt fails with a
transient-classified error, the loop makes all remaining attempts, sleeps
after each but the last, and returns the error text built from the *last*
attempt's message. -/
theorem genLoop_allTransient (api : Nat → AttemptOutcome) (msg : Nat → String)
    (maxRetries : Nat)
    (hall : ∀ i < maxRetries, api i = .exc (msg i) ∧ isTransientError (msg i) = true) :
    ∀ f attempt sleeps calls, f + 1 + attempt = maxRetries →
      genLoop api maxRetries (f + 1) attempt sleeps calls =
        ⟨"API 调用错误: " ++ msg (maxRetries - 1),
         sleeps ++ (List.range f).map (fun k => (attempt + k + 1) * 2),
         calls ++ (List.range (f + 1)).map (fun k => attempt + k)⟩ := by
  intro f
  induction f with
  | zero =>
    intro attempt sleeps calls hsum
    obtain ⟨hapi, _⟩ := hall attempt (by omega)
    have hlast : attempt = maxRetries - 1 := by omega
    rw [genLoop_succ]
    simp only [hapi]
    rw [if_neg (by simp; omega)]
    simp [hlast, List.range_succ]
  | succ f ihf =>
    intro attempt sleeps calls hsum
    obtain ⟨hapi, htr⟩ := hall attempt (by omega)
    rw [genLoop_succ]
    simp only [hapi]
    rw [if_pos (by simp [htr]; omega)]
    rw [ihf (attempt + 1) _ _ (by omega)]
    have hmapS : List.map (fun k => (attempt + 1 + k + 1) * 2) (List.range f) =
        List.map (fun k => (attempt + (k + 1) + 1) * 2) (List.range f) :=
      List.map_congr_left (fun a _ => by congr 1; omega)
    have hmapC : List.map (fun k => attempt + 1 + k) (List.range (f + 1)) =
        List.map (fun k => attempt + (k + 1)) (List.range (f + 1)) :=
      List.map_congr_left (fun a _ => by omega)
    simp only [GenRun.mk.injEq]
    refine ⟨trivial, ?_, ?_⟩
    · rw [hmapS, List.append_assoc]
      congr 1
      rw [List.range_succ_eq_map]
      simp [List.map_map, Function.comp]
    · rw [hmapC, List.append_assoc]
      congr 1
      rw [List.range_succ_eq_map (n := f + 1)]
      simp [List.map_map, Function.comp]

/-- C4 amended: when every one of the `max_retries ≥ 1` attempts fails with
a transient-classified error, `generate_content` makes all `max_retries`
attempts, sleeps 2s, 4s, … after each attempt but the last, and returns
"API 调用错误: " followed by the *last* attempt's error message; the
"达到最大重试次数" text is returned only when `max_retries = 0` (the loop
body never runs). -/
theorem c4_amended (api : Nat → AttemptOutcome) (msg : Nat → String)
    (maxRetries : Nat) (h1 : 1 ≤ maxRetries)
    (hall : ∀ i < maxRetries, api i = .exc (msg i) ∧ isTransientError (msg i) = true) :
    generateContent api maxRetries =
      ⟨"API 调用错误: " ++ msg (maxRetries - 1),
       (List.range (maxRetries - 1)).map (fun k => (k + 1) * 2),
       List.range maxRetries⟩ ∧
    generateContent api 0 = ⟨"API 调用错误: 达到最大重试次数", [], []⟩ := by
  constructor
  · obtain ⟨f, rfl⟩ : ∃ f, maxRetries = f + 1 := ⟨maxRetries - 1, by omega⟩
    have h := genLoop_allTransient api msg (f + 1) hall f 0 [] [] (by omega)
    show genLoop api (f + 1) (f + 1) 0 [] [] = _
    rw [h]
    simp
  · rfl

/-- Witness for C4 amended: three transient failures with distinct messages;
the returned text carries the third (last) message. -/
theorem c4_amended_witness :
    1 ≤ 3 ∧
    generateContent (fun i => .exc (if i = 2 then "connection lost" else "timeout")) 3 =
      ⟨"API 调用错误: connection lost", [2, 4], [0, 1, 2]⟩ := by
  refine ⟨by decide, ?_⟩
  have h := (c4_amended (fun i => .exc (if i = 2 then "connection lost" else "timeout"))
    (fun i => if i = 2 then "connection lost" else "timeout") 3 (by decide)
    (by intro i hi; exact ⟨rfl, by interval_cases i <;> decide⟩)).1
  exact h.trans (by decide)

/-! ## Claim C5

`get_patents` returns `self.patents.copy()` and `get_patent_by_id` returns
`patent.copy()` — both *shallow* copies.  The copied dict is a fresh
top-level object, but its `features` entry is the same list object as the
stored record's, so a caller appending to the returned record's features
list mutates the store. -/

/-- Address update leaves other addresses untouched. -/
theorem addrGet_addrSet_ne {α : Type} (l : List (Nat × α)) (a b : Nat) (v : α)
    (h : a ≠ b) : addrGet (addrSet l a v) b = addrGet l b := by
  induction l with
  | nil => rfl
  | cons p rest ih =>
    obtain ⟨k, w⟩ := p
    by_cases hk : k = a
    · subst hk
      simp [addrSet, addrGet, h]
    · simp [addrSet, addrGet, hk, ih]

/-- Appending a fresh cell leaves lookups of other addresses untouched. -/
theorem addrGet_append_ne {α : Type} (l : List (Nat × α)) (n b : Nat) (v : α)
    (h : b ≠ n) : addrGet (l ++ [(n, v)]) b = addrGet l b := by
  induction l with
  | nil => simp [addrGet, Ne.symm h]
  | cons p rest ih =>
    obtain ⟨k, w⟩ := p
    by_cases hk : k = b
    · simp [addrGet, hk]
    · simp [addrGet, hk, ih]

/-- Two heaps with the same list cells and agreeing dict cell at `a` have the
same deep reading of the record at `a`. -/
theorem deepRead_congr (hA hB : AliasHeap) (a : Nat)
    (hd : addrGet hA.dicts a = addrGet hB.dicts a) (hl : hA.lists = hB.lists) :
    deepRead hA a = deepRead hB a := by
  unfold deepRead heapDict heapList
  rw [hd, hl]

/-- C5 counterexample: on the one-record example store, `get_patent_by_id`
returns a copy whose `features` entry is still the reference to list cell 1;
appending through that reference ("mutating a nested field of the value
returned by a read") changes the store's record from features `["f1"]` to
`["f1", "x"]` — the store's internal collection is *not* left unchanged. -/
theorem c5_counterexample :
    (getPatentById exampleHeap examplePatents "p1").isSome = true ∧
    fvGet (heapDict exampleRead.2 exampleRead.1) "features" = some (.ref 1) ∧
    storeView (appendToListCell exampleRead.2 1 "x") examplePatents =
      [[("id", .s "p1"), ("features", .l ["f1", "x"])]] ∧
    storeView (appendToListCell exampleRead.2 1 "x") examplePatents ≠
      storeView exampleHeap examplePatents := by
  refine ⟨by decide, by decide, by decide, by decide⟩

/-- C5 amended: the reads return *shallow* copies.  `get_patent_by_id`
allocates a fresh top-level dict, so (i) the read itself leaves the store's
deeply-read view unchanged and (ii) a caller reassigning any top-level field
of the returned copy leaves the view unchanged; nested mutable fields,
however, are shared with the store (see the counterexample), and
`get_patents` returns a fresh list whose elements are the store's own record
objects. -/
theorem c5_amended (h : AliasHeap) (addrs : List Nat) (pid : String)
    (c : Nat) (h2 : AliasHeap)
    (hwf : ∀ a ∈ addrs, a < h.nextAddr)
    (hget : getPatentById h addrs pid = some (c, h2)) :
    storeView h2 addrs = storeView h addrs ∧
    ∀ key v, storeView (setDictField h2 c key v) addrs = storeView h2 addrs := by
  unfold getPatentById at hget
  cases hfind : addrs.find? (fun a => fvGet (heapDict h a) "id" == some (.s pid)) with
  | none =>
    rw [hfind] at hget
    exact absurd hget (by simp)
  | some a =>
    rw [hfind] at hget
    simp only [Option.some.injEq, Prod.mk.injEq] at hget
    obtain ⟨hc, hh2⟩ := hget
    subst hc
    subst hh2
    constructor
    · refine List.map_congr_left ?_
      intro b hb
      refine deepRead_congr _ _ _ ?_ rfl
      exact addrGet_append_ne _ _ _ _ (by have := hwf b hb; omega)
    · intro key v
      refine List.map_congr_left ?_
      intro b hb
      refine deepRead_congr _ _ _ ?_ rfl
      show addrGet (addrSet _ h.nextAddr _) b = _
      exact addrGet_addrSet_ne _ _ _ _ (by have := hwf b hb; omega)

/-- Witness for C5 amended, on the example store: the read leaves the view
unchanged, and reassigning the copy's top-level `id` field does too. -/
theorem c5_amended_witness :
    (∀ a ∈ examplePatents, a < exampleHeap.nextAddr) ∧
    getPatentById exampleHeap examplePatents "p1" = some exampleRead ∧
    storeView exampleRead.2 examplePatents = storeView exampleHeap examplePatents ∧
    storeView (setDictField exampleRead.2 exampleRead.1 "id" (.s "other")) examplePatents =
      storeView exampleRead.2 examplePatents := by
  have h := c5_amended exampleHeap examplePatents "p1" exampleRead.1 exampleRead.2
    (by decide) (by decide)
  exact ⟨by decide, by decide, h.1, h.2 "id" (.s "other")⟩

/-- Evaluation of the batch worker on an idea without an `error` key and
with a string `id`: the returned document, with status `"draft"`
unconditionally. -/
theorem generateSinglePatent_noError (genC : JsonVal → JsonVal → String)
    (now : String) (idea : JsonVal) (s : String)
    (hne : hasKey idea "error" = false)
    (hid : objLookup idea "id" = some (.str s)) :
    generateSinglePatent genC now idea =
      .ok (.obj [("id", .str (pyReplace s "idea_" "patent_")),
                 ("title", objGetD idea "title" (.str "未知标题")),
                 ("features", objGetD idea "features" (.arr [])),
                 ("content", .str (genC (objGetD idea "title" (.str "未知标题"))
                                     (objGetD idea "features" (.arr [])))),
                 ("generated_at", .str now),
                 ("status", .str "draft")]) := by
  unfold generateSinglePatent
  rw [if_neg (by simp [hne])]
  simp [pyGetItem, hid, pyStrReplace]

/-! ## Claim C6

`generate_full_patent` builds ids of the epoch-and-sequence form, but
`batch_generate_patents` derives a document's id from the idea's positional
id by string replacement (`idea_1` becomes `patent_1`), which is not of that
form; and the full-patent id depends only on the observed epoch second and
store length, so concurrent writers observing the same pair collide. -/

/-- C6 counterexample: the batch path turns the well-formed idea `idea_1`
into a document whose id is `"patent_1"`, which does not have the
`patent_<epoch-seconds>_<sequence>` form the claim asserts for every
document created by a domain operation. -/
theorem c6_counterexample :
    generateSinglePatent (fun _ _ => "c") "now" exampleIdea =
      .ok (.obj [("id", .str "patent_1"), ("title", .str "t"),
                 ("features", .arr []), ("content", .str "c"),
                 ("generated_at", .str "now"), ("status", .str "draft")]) ∧
    isEpochSeqId "patent_1" = false := by
  exact ⟨rfl, by decide⟩

/-- C6 amended: documents built by `generate_full_patent` have id
`patent_<epoch-seconds>_<observed store length + 1>`; that id is a function
of the observed `(timestamp, length)` pair alone (so two concurrent writers
observing the same pair produce *equal* ids — uniqueness is not guaranteed);
and documents built by `batch_generate_patents` from a non-error idea reuse
the idea's id with `idea_` replaced by `patent_`. -/
theorem c6_amended (ts numPatents : Nat) (titleA titleB : String)
    (featsA featsB : List String) (resultA resultB nowA nowB : String)
    (genC : JsonVal → JsonVal → String) (now : String) (idea : JsonVal) (s : String)
    (hne : hasKey idea "error" = false)
    (hid : objLookup idea "id" = some (.str s)) :
    objLookup (mkFullPatentDoc ts numPatents titleA featsA resultA nowA) "id" =
      some (.str ("patent_" ++ toString ts ++ "_" ++ toString (numPatents + 1))) ∧
    objLookup (mkFullPatentDoc ts numPatents titleA featsA resultA nowA) "id" =
      objLookup (mkFullPatentDoc ts numPatents titleB featsB resultB nowB) "id" ∧
    ∃ d, generateSinglePatent genC now idea = .ok d ∧
      objLookup d "id" = some (.str (pyReplace s "idea_" "patent_")) := by
  refine ⟨?_, ?_, ?_⟩
  · simp [mkFullPatentDoc, fullPatentDocId, objLookup, fieldGet]
  · simp [mkFullPatentDoc, fullPatentDocId, objLookup, fieldGet]
  · exact ⟨_, generateSinglePatent_noError genC now idea s hne hid,
      by simp [objLookup, fieldGet]⟩

/-- Witness for C6 amended, at epoch second 1700000000, store length 0 and
the idea `idea_1`. -/
theorem c6_amended_witness :
    hasKey exampleIdea "error" = false ∧
    objLookup exampleIdea "id" = some (.str "idea_1") ∧
    objLookup (mkFullPatentDoc 1700000000 0 "t" [] "r" "n") "id" =
      some (.str "patent_1700000000_1") := by
  have h := c6_amended 1700000000 0 "t" "t2" [] [] "r" "r2" "n" "n2"
    (fun _ _ => "c") "now" exampleIdea "idea_1" (by decide) (by rfl)
  exact ⟨by decide, by rfl, h.1.trans (by rfl)⟩

/-! ## Claim C7 -/

/-- C7: when the first attempt fails with an error matching none of the
transient keywords, `generate_content` makes exactly one attempt (one
collaborator call), performs no sleep, and returns the error text carrying
that message. -/
theorem c7_permanent_fails_fast (api : Nat → AttemptOutcome) (maxRetries : Nat)
    (m : String) (h1 : 1 ≤ maxRetries) (hapi : api 0 = .exc m)
    (hperm : isTransientError m = false) :
    generateContent api maxRetries = ⟨"API 调用错误: " ++ m, [], [0]⟩ := by
  obtain ⟨f, rfl⟩ : ∃ f, maxRetries = f + 1 := ⟨maxRetries - 1, by omega⟩
  show genLoop api (f + 1) (f + 1) 0 [] [] = _
  rw [genLoop_succ]
  simp only [hapi]
  rw [if_neg (by simp [hperm])]
  rfl

/-- Witness for C7: a permanent error message ("invalid api key" matches no
transient keyword); one call, no sleeps. -/
theorem c7_permanent_fails_fast_witness :
    1 ≤ 3 ∧ isTransientError "invalid api key" = false ∧
    generateContent (fun _ => .exc "invalid api key") 3 =
      ⟨"API 调用错误: invalid api key", [], [0]⟩ :=
  ⟨by decide, by decide,
    c7_permanent_fails_fast (fun _ => .exc "invalid api key") 3 "invalid api key"
      (by decide) rfl (by decide)⟩

/-! ## Claim C8 -/

/-- C8: with transient-classified failures on attempts 0 and 1 and success
on attempt 2, `generate_content` with `max_retries = 3` returns the success
text after exactly two backoff sleeps of 2 then 4 seconds (and three
collaborator calls). -/
theorem c8_two_retries_then_success (api : Nat → AttemptOutcome) (m0 m1 t : String)
    (h0 : api 0 = .exc m0) (ht0 : isTransientError m0 = true)
    (h1 : api 1 = .exc m1) (ht1 : isTransientError m1 = true)
    (h2 : api 2 = .content t) :
    generateContent api 3 = ⟨t, [2, 4], [0, 1, 2]⟩ := by
  show genLoop api 3 3 0 [] [] = _
  rw [genLoop_succ]
  simp only [h0]
  rw [if_pos (by simp [ht0])]
  rw [genLoop_succ]
  simp only [h1]
  rw [if_pos (by simp [ht1])]
  rw [genLoop_succ]
  simp only [h2]
  rfl

/-- Witness for C8: timeout, then rate limit, then success. -/
theorem c8_two_retries_then_success_witness :
    isTransientError "timeout" = true ∧ isTransientError "rate limit hit" = true ∧
    generateContent
      (fun i => if i = 0 then .exc "timeout"
                else if i = 1 then .exc "rate limit hit" else .content "OK") 3 =
      ⟨"OK", [2, 4], [0, 1, 2]⟩ :=
  ⟨by decide, by decide,
    c8_two_retries_then_success
      (fun i => if i = 0 then .exc "timeout"
                else if i = 1 then .exc "rate limit hit" else .content "OK")
      "timeout" "rate limit hit" "OK" rfl (by decide) rfl (by decide) rfl⟩

/-! ## Claim C9 -/

/-- Setting a dict key then looking it up yields the new value. -/
theorem fieldGet_setField_self (fs : List (String × JsonVal)) (key : String)
    (v : JsonVal) : fieldGet (setField fs key v) key = some v := by
  induction fs with
  | nil => simp [setField, fieldGet]
  | cons p rest ih =>
    obtain ⟨k, w⟩ := p
    by_cases h : k = key
    · simp [setField, fieldGet, h]
    · simp [setField, fieldGet, h, ih]

/-- Setting a dict key leaves lookups of other keys untouched. -/
theorem fieldGet_setField_ne (fs : List (String × JsonVal)) (key key2 : String)
    (v : JsonVal) (h : key ≠ key2) :
    fieldGet (setField fs key v) key2 = fieldGet fs key2 := by
  induction fs with
  | nil => simp [setField, fieldGet, h]
  | cons p rest ih =>
    obtain ⟨k, w⟩ := p
    by_cases hk : k = key
    · subst hk
      simp [setField, fieldGet, h]
    · simp [setField, fieldGet, hk, ih]

/-- Every branch of the idea post-processing stamps the positional id
`idea_<i+1>` onto the produced idea. -/
theorem processIdeaResult_id (now : String) (i : Nat) (r : JsonVal) :
    objLookup (processIdeaResult now i r) "id" =
      some (.str ("idea_" ++ toString (i + 1))) := by
  cases r with
  | obj fields =>
    by_cases he : (fieldGet fields "error").isSome = true
    · simp [processIdeaResult, he, mkErrorIdea, objLookup, fieldGet]
    · by_cases ht : (fieldGet fields "title").isSome = true
      · by_cases hf : (fieldGet fields "features").isSome = true
        · simp only [processIdeaResult, he, ht, hf, Bool.false_eq_true,
            if_false, Bool.and_self, if_true]
          show fieldGet (setField (setField fields "id" _) "generated_at" _) "id" = _
          rw [fieldGet_setField_ne _ _ _ _ (by decide)]
          exact fieldGet_setField_self _ _ _
        · simp [processIdeaResult, he, ht, hf, objLookup, fieldGet]
      · simp [processIdeaResult, he, ht, objLookup, fieldGet]
  | str s => simp [processIdeaResult, mkErrorIdea, objLookup, fieldGet]
  | num n => simp [processIdeaResult, mkErrorIdea, objLookup, fieldGet]
  | bool b => simp [processIdeaResult, mkErrorIdea, objLookup, fieldGet]
  | null => simp [processIdeaResult, mkErrorIdea, objLookup, fieldGet]
  | arr es => simp [processIdeaResult, mkErrorIdea, objLookup, fieldGet]

/-- A result that does not take the fully-successful branch produces an idea
carrying an `error` key. -/
theorem processIdeaResult_error (now : String) (i : Nat) (r : JsonVal)
    (h : ideaResultOk r = false) :
    hasKey (processIdeaResult now i r) "error" = true := by
  cases r with
  | obj fields =>
    by_cases he : (fieldGet fields "error").isSome = true
    · simp [processIdeaResult, he, mkErrorIdea, hasKey, objLookup, fieldGet]
    · have htf : ((fieldGet fields "title").isSome &&
          (fieldGet fields "features").isSome) = false := by
        simpa [ideaResultOk, he] using h
      simp [processIdeaResult, he, htf, hasKey, objLookup, fieldGet]
  | str s => simp [processIdeaResult, mkErrorIdea, hasKey, objLookup, fieldGet]
  | num n => simp [processIdeaResult, mkErrorIdea, hasKey, objLookup, fieldGet]
  | bool b => simp [processIdeaResult, mkErrorIdea, hasKey, objLookup, fieldGet]
  | null => simp [processIdeaResult, mkErrorIdea, hasKey, objLookup, fieldGet]
  | arr es => simp [processIdeaResult, mkErrorIdea, hasKey, objLookup, fieldGet]

/-- C9 counterexample: when the parsed model output is the dict
`{"error": ""}`, the produced `idea_1` is returned with an `error` field
whose value is the *empty* string — the claim's "non-empty 'error' field"
fails at this input (the idea is still returned at its position). -/
theorem c9_counterexample :
    (generatePatentIdeasFull (fun _ _ => .ok (.obj [("error", .str "")]))
        1 "t" 1 [0] "p").length = 1 ∧
    objLookup ((generatePatentIdeasFull (fun _ _ => .ok (.obj [("error", .str "")]))
        1 "t" 1 [0] "p").getD 0 .null) "error" = some (.str "") := by
  exact ⟨rfl, rfl⟩

/-- C9 amended: `generate_patent_ideas(count)` returns exactly `count`
ideas; the i-th (1-based) carries id `idea_<i>`; and any per-unit result
that misses the required fields or carries an error is still returned at its
position as an idea with an `error` field — whose value, however, can be the
empty string when the parsed result itself carries an empty error value. -/
theorem c9_positional_ideas (gen : Nat → String → Except String JsonVal)
    (count : Nat) (now promptText : String) (maxWorkers : Nat) (order : List Nat)
    (_hc : 1 ≤ count) (_hmw : 1 ≤ maxWorkers)
    (hord : order.Perm (List.range count)) :
    (generatePatentIdeasFull gen count now maxWorkers order promptText).length = count ∧
    (∀ i < count,
      objLookup ((generatePatentIdeasFull gen count now maxWorkers order promptText).getD
          i .null) "id" = some (.str ("idea_" ++ toString (i + 1)))) ∧
    (∀ i < count,
      ideaResultOk (runCaught (fun k => gen k promptText) batchJsonOnExc i) = false →
        hasKey ((generatePatentIdeasFull gen count now maxWorkers order promptText).getD
          i .null) "error" = true) := by
  have hbatch : batchGenerateJson gen (List.replicate count promptText) maxWorkers order =
      (List.range count).map
        (fun i => some (runCaught
          (fun k => gen k ((List.replicate count promptText).getD k ""))
          batchJsonOnExc i)) := by
    show dispatchCollect (List.replicate count promptText).length
        (runCaught (fun k => gen k ((List.replicate count promptText).getD k ""))
          batchJsonOnExc) order = _
    rw [List.length_replicate]
    exact dispatchCollect_eq_map count _ order hord
  have hout : generatePatentIdeasFull gen count now maxWorkers order promptText =
      ((List.range count).map
        (fun i => runCaught
          (fun k => gen k ((List.replicate count promptText).getD k ""))
          batchJsonOnExc i)).enum.map
        (fun p => processIdeaResult now p.1 p.2) := by
    unfold generatePatentIdeasFull generatePatentIdeas
    rw [hbatch, List.map_map]
    rfl
  refine ⟨?_, ?_, ?_⟩
  · rw [hout]
    simp
  · intro i hi
    rw [hout, List.getD_eq_getElem?_getD, List.getElem?_map, List.getElem?_enum,
      List.getElem?_map, List.getElem?_range hi]
    simp only [Option.map_some', Option.getD_some]
    exact processIdeaResult_id now i _
  · intro i hi hbad
    rw [hout, List.getD_eq_getElem?_getD, List.getElem?_map, List.getElem?_enum,
      List.getElem?_map, List.getElem?_range hi]
    simp only [Option.map_some', Option.getD_some]
    apply processIdeaResult_error
    have hrep : (List.replicate count promptText)[i]?.getD "" = promptText := by
      simp [List.getElem?_replicate, hi]
    simpa [runCaught, hrep] using hbad

/-- Witness for C9 at a two-idea batch with reversed completion order. -/
theorem c9_positional_ideas_witness :
    1 ≤ 2 ∧ [1, 0].Perm (List.range 2) ∧
    (generatePatentIdeasFull
        (fun _ _ => .ok (.obj [("title", .str "A"), ("features", .arr [])]))
        2 "t" 1 [1, 0] "p").length = 2 ∧
    objLookup ((generatePatentIdeasFull
        (fun _ _ => .ok (.obj [("title", .str "A"), ("features", .arr [])]))
        2 "t" 1 [1, 0] "p").getD 0 .null) "id" = some (.str "idea_1") := by
  have h := c9_positional_ideas
    (fun _ _ => .ok (.obj [("title", .str "A"), ("features", .arr [])]))
    2 "t" "p" 1 [1, 0] (by decide) (by decide) (by decide)
  exact ⟨by decide, by decide, h.1, (h.2.1 0 (by decide)).trans (by rfl)⟩

/-! ## Claim C10 -/

/-- C10: in `batch_generate_patents`, the worker for an idea without an
`error` key builds its document with status `"draft"` unconditionally —
whatever text the gateway returned, including text starting with the error
prefix — whereas `generate_full_patent` downgrades such content to status
`"error"` via its prefix check. -/
theorem c10_batch_never_downgrades (genC : JsonVal → JsonVal → String)
    (now : String) (idea : JsonVal) (s : String)
    (hne : hasKey idea "error" = false)
    (hid : objLookup idea "id" = some (.str s)) :
    (∃ d, generateSinglePatent genC now idea = .ok d ∧
      objLookup d "status" = some (.str "draft")) ∧
    (∀ content, pyStartsWith content "API 调用错误:" = true →
      fullPatentStatus content = "error") := by
  constructor
  · exact ⟨_, generateSinglePatent_noError genC now idea s hne hid,
      by simp [objLookup, fieldGet]⟩
  · intro content hcp
    simp [fullPatentStatus, hcp]

/-- Witness for C10: the gateway returns error text, the batch document
still has status `"draft"`, while the full-patent path would mark the same
content `"error"`. -/
theorem c10_batch_never_downgrades_witness :
    hasKey exampleIdea "error" = false ∧
    pyStartsWith "API 调用错误: boom" "API 调用错误:" = true ∧
    generateSinglePatent (fun _ _ => "API 调用错误: boom") "now" exampleIdea =
      .ok (.obj [("id", .str "patent_1"), ("title", .str "t"),
                 ("features", .arr []), ("content", .str "API 调用错误: boom"),
                 ("generated_at", .str "now"), ("status", .str "draft")]) ∧
    fullPatentStatus "API 调用错误: boom" = "error" := by
  have h := c10_batch_never_downgrades (fun _ _ => "API 调用错误: boom") "now"
    exampleIdea "idea_1" (by decide) (by rfl)
  exact ⟨by decide, by decide, by rfl, h.2 "API 调用错误: boom" (by decide)⟩

end PatentTool
